import Mathlib

/-!
Verification of the logrot package: signal-driven log file rotation.

The package keeps a process-wide registry (the `files` map guarded by a
mutex), a rotation controller (`LogRot`) owning the current handle of one
path, an output redirector (`setOutput`), and a background signal listener
started by `rotateOn` that invokes `rotate` for each received rotation
signal and stops on the quit channel.

The embedding below is a state machine over `World`, the relevant
process state: the pool of open OS file handles, the registry map, the
output destination of the default log sink, of attached loggers and of the
process stdout and stderr streams.  File handles are identified by a
numeric id drawn from a counter, so a freshly opened handle is a new
object.  Fatal open failures (log.Fatal terminates the process) are
modelled by `Except.error` carrying the diagnostic; paths listed in
`badPaths` are those for which the OS open call fails.  Two ghost fields
(`regLog`, `openLog`) record the history of registry writes and of OS open
calls; they influence nothing and exist only to state history properties.
Goroutine interleaving is modelled by the explicit event lists consumed by
`listen`; the unbuffered quit channel handshake of `Close` is modelled by
`listenerUp`: a send succeeds only while the listener still runs,
otherwise the sender blocks forever (`CloseOutcome.blocked`).
-/

namespace Logrot

/-- A filesystem path. -/
abbrev Path := String

/-- An open file handle as returned by os.OpenFile: `id` identifies the
OS-level file object, `path` is the name it was opened under. -/
structure File where
  id : Nat
  path : Path
deriving DecidableEq

/-- The flag set of an os.OpenFile call. -/
structure OpenFlags where
  create : Bool
  writeOnly : Bool
  append : Bool
deriving DecidableEq

/-- os.O_CREATE, os.O_WRONLY, os.O_APPEND: the flags passed by
mustOpenFileForAppend. -/
def appendCreateFlags : OpenFlags :=
  { create := true, writeOnly := true, append := true }

/-- The permission mode 0644 passed by mustOpenFileForAppend. -/
def appendCreateMode : Nat := 0o644

/-- syscall.SIGHUP, the signal used by WriteTo and WriteAllTo. -/
def SIGHUP : Nat := 1

/-- The process state the package manipulates.  `files` is the registry
map (the package-level `files` variable; the mutex `filem` is modelled by
the atomicity of each step).  `openIds` is the set of handle ids currently
open at the OS level.  `logOutput` is the destination installed by
log.SetOutput, `loggerOut` the destination of each attached Logger,
`stdout` and `stderr` the process stream variables; in each of these,
`none` means the original (never redirected) destination.  `regLog` and
`openLog` are ghost history fields. -/
@[ext]
structure World where
  nextId : Nat
  nextCh : Nat
  openIds : List Nat
  badPaths : List Path
  files : Path → Option File
  regLog : List (Path × File)
  openLog : List (Path × OpenFlags × Nat)
  logOutput : Option File
  loggerOut : Nat → Option File
  stdout : Option File
  stderr : Option File

/-- os.OpenFile: fails on a bad path, otherwise yields a brand-new handle
for `name` and records the call in the ghost open log. -/
def osOpenFile (name : Path) (fl : OpenFlags) (mode : Nat) (w : World) :
    Option (File × World) :=
  if name ∈ w.badPaths then
    none
  else
    some (⟨w.nextId, name⟩,
      { w with
        nextId := w.nextId + 1,
        openIds := w.nextId :: w.openIds,
        openLog := w.openLog ++ [(name, fl, mode)] })

/-- The registry write `files[name] = f` performed under the `filem`
mutex, with its ghost history entry. -/
def register (name : Path) (f : File) (w : World) : World :=
  { w with
    files := fun p => if p = name then some f else w.files p,
    regLog := w.regLog ++ [(name, f)] }

/-- mustOpenFileForAppend: os.OpenFile with O_CREATE, O_WRONLY, O_APPEND
and mode 0644; on error, log.Fatalf terminates the process with a
diagnostic (modelled by `Except.error`); on success the new handle is
remembered in the registry and returned. -/
def mustOpenFileForAppend (name : Path) (w : World) :
    Except String (File × World) :=
  match osOpenFile name appendCreateFlags appendCreateMode w with
  | none => .error ("error: " ++ name)
  | some (f, w1) => .ok (f, register name f w1)

/-- Open: returns the registered handle for `name` if any, otherwise
opens (and thereby registers) a fresh one. -/
def Open (name : Path) (w : World) : Except String (File × World) :=
  match w.files name with
  | some f => .ok (f, w)
  | none => mustOpenFileForAppend name w

/-- The LogRot struct: path, current handle, subscribed signal, quit
channel (identified by a number), attached loggers (identified by
numbers), and the two stream-capture flags. -/
structure LogRot where
  name : Path
  logFile : Option File
  signal : Nat
  quit : Nat
  loggers : List Nat
  captureStdout : Bool
  captureStderr : Bool
deriving DecidableEq

/-- A started controller: the LogRot value plus whether its listener
goroutine is still running (able to receive on the quit channel). -/
structure Ctl where
  rl : LogRot
  listenerUp : Bool
deriving DecidableEq

/-- One step of the redirection loop: l.SetOutput(v). -/
def setLoggerOut (v : Option File) (acc : World) (l : Nat) : World :=
  { acc with loggerOut := fun x => if x = l then v else acc.loggerOut x }

/-- LogRot.setOutput: log.SetOutput(rl.logFile), then each attached
logger, then os.Stdout and os.Stderr when the corresponding flag is
set. -/
def setOutput (rl : LogRot) (w : World) : World :=
  let w1 := { w with logOutput := rl.logFile }
  let w2 := rl.loggers.foldl (setLoggerOut rl.logFile) w1
  let w3 := if rl.captureStdout then { w2 with stdout := rl.logFile } else w2
  if rl.captureStderr then { w3 with stderr := rl.logFile } else w3

/-- os.File.Close: the handle id leaves the open set. -/
def closeFile (f : File) (w : World) : World :=
  { w with openIds := w.openIds.filter (fun i => i != f.id) }

/-- LogRot.rotate: remember the old handle, open a brand-new one for the
same path (fatal on failure), reapply the redirection, then close the old
handle. -/
def rotate (rl : LogRot) (w : World) : Except String (LogRot × World) :=
  let oldLog := rl.logFile
  match mustOpenFileForAppend rl.name w with
  | .error e => .error e
  | .ok (f, w1) =>
    let rl2 := { rl with logFile := some f }
    let w2 := setOutput rl2 w1
    match oldLog with
    | some g => .ok (rl2, closeFile g w2)
    | none => .ok (rl2, w2)

/-- LogRot.CaptureStdout: set the flag and point os.Stdout at the current
handle. -/
def CaptureStdout (rl : LogRot) (w : World) : LogRot × World :=
  ({ rl with captureStdout := true }, { w with stdout := rl.logFile })

/-- LogRot.CaptureStderr: set the flag and point os.Stderr at the current
handle. -/
def CaptureStderr (rl : LogRot) (w : World) : LogRot × World :=
  ({ rl with captureStderr := true }, { w with stderr := rl.logFile })

/-- rotateOn: open the file (fatal on failure), build the controller with
a fresh quit channel, redirect output, and start the listener
goroutine. -/
def rotateOn (name : Path) (sig : Nat) (loggers : List Nat) (w : World) :
    Except String (Ctl × World) :=
  match mustOpenFileForAppend name w with
  | .error e => .error e
  | .ok (f, w1) =>
    let rl : LogRot :=
      { name := name, logFile := some f, signal := sig, quit := w1.nextCh,
        loggers := loggers, captureStdout := false, captureStderr := false }
    let w2 := setOutput rl { w1 with nextCh := w1.nextCh + 1 }
    .ok ({ rl := rl, listenerUp := true }, w2)

/-- WriteTo: rotateOn with SIGHUP. -/
def WriteTo (name : Path) (loggers : List Nat) (w : World) :
    Except String (Ctl × World) :=
  rotateOn name SIGHUP loggers w

/-- WriteAllTo: WriteTo, then CaptureStdout and CaptureStderr. -/
def WriteAllTo (name : Path) (loggers : List Nat) (w : World) :
    Except String (Ctl × World) :=
  match WriteTo name loggers w with
  | .error e => .error e
  | .ok (c, w1) =>
    let p1 := CaptureStdout c.rl w1
    let p2 := CaptureStderr p1.1 p1.2
    .ok ({ c with rl := p2.1 }, p2.2)

/-- Outcome of a LogRot.Close call: skipped by the nil guard, completed,
or blocked forever sending on the quit channel. -/
inductive CloseOutcome where
  | noop
  | completed
  | blocked
deriving DecidableEq

/-- LogRot.Close: with a nil receiver or a nil logFile field the guard
makes the call a no-op.  Otherwise it sends on the unbuffered quit
channel: while the listener is still running the send is received and the
listener returns, after which the handle is closed; if the listener has
already returned there is no receiver and the send blocks forever, so the
handle close below it is never reached. -/
def Close (oc : Option Ctl) (w : World) : CloseOutcome × Option Ctl × World :=
  match oc with
  | none => (.noop, none, w)
  | some c =>
    match c.rl.logFile with
    | none => (.noop, some c, w)
    | some f =>
      if c.listenerUp then
        (.completed, some { c with listenerUp := false }, closeFile f w)
      else
        (.blocked, some c, w)

/-- An event consumed by the listener loop: a signal arriving on the sigs
channel, or the quit notification. -/
inductive LEv where
  | sigEv (s : Nat)
  | quitEv
deriving DecidableEq

/-- The listener goroutine of rotateOn, processing its incoming events in
arrival order: a matching signal triggers rotate synchronously, the quit
event makes the loop return.  The result carries the number of rotate
invocations performed. -/
def listen (rl : LogRot) (w : World) :
    List LEv → Except String (LogRot × World × Nat)
  | [] => .ok (rl, w, 0)
  | LEv.quitEv :: _ => .ok (rl, w, 0)
  | LEv.sigEv s :: rest =>
    if s = rl.signal then
      match rotate rl w with
      | .error e => .error e
      | .ok (rl1, w1) =>
        match listen rl1 w1 rest with
        | .error e => .error e
        | .ok (rl2, w2, n) => .ok (rl2, w2, n + 1)
    else
      listen rl w rest

/-- n sequential rotations, each completing before the next begins. -/
def iterRotate : Nat → LogRot → World → Except String (LogRot × World)
  | 0, rl, w => .ok (rl, w)
  | n + 1, rl, w =>
    match rotate rl w with
    | .error e => .error e
    | .ok (rl1, w1) => iterRotate n rl1 w1

/-- The operations of the public surface, for statements quantifying over
arbitrary operation sequences.  Controller-directed operations name a
controller by its index; an out-of-range index is a no-op. -/
inductive Op where
  | openOp (p : Path)
  | writeToOp (p : Path) (ls : List Nat)
  | writeAllToOp (p : Path) (ls : List Nat)
  | rotateOp (i : Nat)
  | captureOutOp (i : Nat)
  | captureErrOp (i : Nat)
  | closeOp (i : Nat)

/-- The whole program state: the world plus the controllers created so
far. -/
structure SysState where
  world : World
  ctls : List Ctl

/-- Interpretation of one operation. -/
def runOp (st : SysState) : Op → Except String SysState
  | .openOp p =>
    match Open p st.world with
    | .error e => .error e
    | .ok (_, w) => .ok { st with world := w }
  | .writeToOp p ls =>
    match WriteTo p ls st.world with
    | .error e => .error e
    | .ok (c, w) => .ok { world := w, ctls := st.ctls ++ [c] }
  | .writeAllToOp p ls =>
    match WriteAllTo p ls st.world with
    | .error e => .error e
    | .ok (c, w) => .ok { world := w, ctls := st.ctls ++ [c] }
  | .rotateOp i =>
    match st.ctls[i]? with
    | none => .ok st
    | some c =>
      match rotate c.rl st.world with
      | .error e => .error e
      | .ok (rl1, w) =>
        .ok { world := w, ctls := st.ctls.set i { c with rl := rl1 } }
  | .captureOutOp i =>
    match st.ctls[i]? with
    | none => .ok st
    | some c =>
      let p2 := CaptureStdout c.rl st.world
      .ok { world := p2.2, ctls := st.ctls.set i { c with rl := p2.1 } }
  | .captureErrOp i =>
    match st.ctls[i]? with
    | none => .ok st
    | some c =>
      let p2 := CaptureStderr c.rl st.world
      .ok { world := p2.2, ctls := st.ctls.set i { c with rl := p2.1 } }
  | .closeOp i =>
    match st.ctls[i]? with
    | none => .ok st
    | some c =>
      let r := Close (some c) st.world
      .ok { world := r.2.2,
            ctls := match r.2.1 with
              | some c1 => st.ctls.set i c1
              | none => st.ctls }

/-- Interpretation of an operation sequence. -/
def runOps (st : SysState) : List Op → Except String SysState
  | [] => .ok st
  | o :: rest =>
    match runOp st o with
    | .error e => .error e
    | .ok st1 => runOps st1 rest

/-- The initial world: nothing open, nothing registered, nothing
redirected; `bad` is the set of paths on which the OS open fails. -/
def initWorld (bad : List Path) : World :=
  { nextId := 0, nextCh := 0, openIds := [], badPaths := bad,
    files := fun _ => none, regLog := [], openLog := [],
    logOutput := none, loggerOut := fun _ => none,
    stdout := none, stderr := none }

/-- The initial program state. -/
def initState (bad : List Path) : SysState :=
  { world := initWorld bad, ctls := [] }

/-- The output destinations attached to a controller: the default log
sink, the attached loggers, and the process streams when captured. -/
def ctlTargets (rl : LogRot) (w : World) : List (Option File) :=
  w.logOutput :: (rl.loggers.map w.loggerOut
    ++ (if rl.captureStdout then [w.stdout] else [])
    ++ (if rl.captureStderr then [w.stderr] else []))

/-- Every attached target currently points at destination `t`. -/
def targetsAimAt (rl : LogRot) (w : World) (t : Option File) : Prop :=
  ∀ x ∈ ctlTargets rl w, x = t

instance (rl : LogRot) (w : World) (t : Option File) :
    Decidable (targetsAimAt rl w t) :=
  inferInstanceAs (Decidable (∀ x ∈ ctlTargets rl w, x = t))

/-- The handle most recently registered for `p` in a register history. -/
def lastReg (log : List (Path × File)) (p : Path) : Option File :=
  log.foldl (fun acc e => if e.1 = p then some e.2 else acc) none

/-- The registry map holds exactly the most recently registered handle of
every path. -/
def regInv (w : World) : Prop :=
  ∀ p, w.files p = lastReg w.regLog p

/-- Every OS open call in the history used the append-create flags and
mode 0644. -/
def flagsInv (w : World) : Prop :=
  ∀ e ∈ w.openLog, e.2.1 = appendCreateFlags ∧ e.2.2 = appendCreateMode

/-- Every open handle id is below the id counter. -/
def idsInv (w : World) : Prop :=
  ∀ i ∈ w.openIds, i < w.nextId

instance (w : World) : Decidable (idsInv w) :=
  inferInstanceAs (Decidable (∀ i ∈ w.openIds, i < w.nextId))

/-- The three invariants together. -/
def worldInv (w : World) : Prop :=
  regInv w ∧ flagsInv w ∧ idsInv w

/-- What Open guarantees at one path of a reachable world: the lookup
returns the most recently registered handle when one exists, and
otherwise (on a good path) opens, registers and returns a brand-new
handle for that path. -/
def registryCorrectAt (w : World) (p : Path) (f : File) : Prop :=
  (lastReg w.regLog p = some f → Open p w = .ok (f, w)) ∧
  (lastReg w.regLog p = none → p ∉ w.badPaths →
    ∃ g w1, Open p w = .ok (g, w1) ∧ g.path = p ∧ g.id = w.nextId ∧
      g.id ∉ w.openIds ∧ w1.files p = some g ∧
      lastReg w1.regLog p = some g)

/-- The conclusion of the rotation ordering claim: the fresh handle, the
decomposition of rotate into open, then redirect, then close-old, and at
every intermediate state each attached target points at a handle that is
open in that state. -/
def rotationStepSafe (rl : LogRot) (g : File) (w : World) : Prop :=
  ∃ f wm,
    mustOpenFileForAppend rl.name w = .ok (f, wm) ∧
    f.path = rl.name ∧ f.id = w.nextId ∧ f.id ∉ w.openIds ∧ f.id ≠ g.id ∧
    rotate rl w =
      .ok ({ rl with logFile := some f },
        closeFile g (setOutput { rl with logFile := some f } wm)) ∧
    targetsAimAt rl wm (some g) ∧ g.id ∈ wm.openIds ∧ f.id ∈ wm.openIds ∧
    targetsAimAt { rl with logFile := some f }
      (setOutput { rl with logFile := some f } wm) (some f) ∧
    f.id ∈ (setOutput { rl with logFile := some f } wm).openIds ∧
    targetsAimAt { rl with logFile := some f }
      (closeFile g (setOutput { rl with logFile := some f } wm)) (some f) ∧
    f.id ∈ (closeFile g (setOutput { rl with logFile := some f } wm)).openIds ∧
    g.id ∉ (closeFile g (setOutput { rl with logFile := some f } wm)).openIds

/-- A demo handle for concrete evaluations. -/
def f0 : File := ⟨0, "app.log"⟩

/-- A demo controller value owning `f0`. -/
def rl0 : LogRot :=
  { name := "app.log", logFile := some f0, signal := SIGHUP, quit := 0,
    loggers := [], captureStdout := false, captureStderr := false }

/-- The demo controller with its listener running. -/
def c0 : Ctl := { rl := rl0, listenerUp := true }

/-- The demo world: the state right after WriteTo opened `f0` for
app.log, registered it and redirected the default log sink to it. -/
def w0 : World :=
  { nextId := 1, nextCh := 1, openIds := [0], badPaths := [],
    files := fun p => if p = "app.log" then some f0 else none,
    regLog := [("app.log", f0)],
    openLog := [("app.log", appendCreateFlags, appendCreateMode)],
    logOutput := some f0, loggerOut := fun _ => none,
    stdout := none, stderr := none }

/-- A world in which opening the path bad fails. -/
def wBad : World := initWorld ["bad"]

/-- A zero-value controller struct: never started, nil logFile. -/
def rlNil : LogRot :=
  { name := "", logFile := none, signal := 0, quit := 0,
    loggers := [], captureStdout := false, captureStderr := false }

/-- A controller value around `rlNil` whose listener never ran. -/
def cNil : Ctl := { rl := rlNil, listenerUp := false }

/-- A controller whose name is a bad path, for the fatal-rotate case. -/
def rlBad : LogRot :=
  { name := "bad", logFile := some f0, signal := SIGHUP, quit := 0,
    loggers := [], captureStdout := false, captureStderr := false }

/-- The result of one rotation of the demo controller. -/
def rotDemo : LogRot × World :=
  match rotate rl0 w0 with
  | .ok p => p
  | .error _ => (rl0, w0)

/-- One controller started by WriteTo from the empty initial world. -/
def startDemo : Ctl × World :=
  match WriteTo "app.log" [] (initWorld []) with
  | .ok p => p
  | .error _ => (c0, w0)

/-- First Close of the started demo controller. -/
def closeDemo1 : CloseOutcome × Option Ctl × World :=
  Close (some startDemo.1) startDemo.2

/-- Second Close of the same controller. -/
def closeDemo2 : CloseOutcome × Option Ctl × World :=
  Close closeDemo1.2.1 closeDemo1.2.2

/-- The demo program state after one WriteTo operation. -/
def runDemo : SysState :=
  match runOps (initState []) [Op.writeToOp "app.log" []] with
  | .ok st => st
  | .error _ => initState []

/-- The demo controller after CaptureStdout. -/
def capOutDemo : LogRot × World := CaptureStdout rl0 w0

/-- The demo controller after CaptureStderr. -/
def capErrDemo : LogRot × World := CaptureStderr rl0 w0

/-- One rotation after CaptureStdout. -/
def capOutRotDemo : LogRot × World :=
  match iterRotate 1 capOutDemo.1 capOutDemo.2 with
  | .ok p => p
  | .error _ => capOutDemo

/-- One rotation after CaptureStderr. -/
def capErrRotDemo : LogRot × World :=
  match iterRotate 1 capErrDemo.1 capErrDemo.2 with
  | .ok p => p
  | .error _ => capErrDemo

/-- The conclusion of the stream-capture claim: CaptureStdout and
CaptureStderr redirect the corresponding stream to the current handle
immediately and set the flag; one rotation of any flagged controller
keeps the flag and redirects the stream to the newly opened handle; and
after any number of rotations following a capture the flag is still set
and the stream still follows the current handle. -/
def captureStreamsSpec (rl rl2 rl2e rl3 rl3e rlN rlM : LogRot)
    (w : World) (w2 w2e w3 w3e wN wM : World) : Prop :=
  (CaptureStdout rl w).1.captureStdout = true ∧
  (CaptureStdout rl w).2.stdout = rl.logFile ∧
  (CaptureStderr rl w).1.captureStderr = true ∧
  (CaptureStderr rl w).2.stderr = rl.logFile ∧
  rl3.captureStdout = true ∧ w3.stdout = rl3.logFile ∧
  rl3.logFile = some ⟨w2.nextId, rl2.name⟩ ∧
  rl3e.captureStderr = true ∧ w3e.stderr = rl3e.logFile ∧
  rl3e.logFile = some ⟨w2e.nextId, rl2e.name⟩ ∧
  rlN.captureStdout = true ∧ wN.stdout = rlN.logFile ∧
  rlM.captureStderr = true ∧ wM.stderr = rlM.logFile

/-- The redirection loop over the attached loggers only rewrites the
loggerOut field, setting every attached logger to `v`. -/
theorem foldl_setLoggerOut (v : Option File) (ls : List Nat) (w : World) :
    ls.foldl (setLoggerOut v) w =
      { w with loggerOut := fun x => if x ∈ ls then v else w.loggerOut x } := by
  induction ls generalizing w with
  | nil =>
    simp only [List.foldl_nil, List.not_mem_nil, if_false]
  | cons a ls ih =>
    simp only [List.foldl_cons]
    rw [ih]
    have h : (fun x => if x ∈ ls then v else (setLoggerOut v w a).loggerOut x)
        = fun x => if x ∈ a :: ls then v else w.loggerOut x := by
      funext x
      by_cases hx : x ∈ ls
      · simp [hx, setLoggerOut, List.mem_cons]
      · by_cases ha : x = a
        · simp [hx, ha, setLoggerOut, List.mem_cons]
        · simp [hx, ha, setLoggerOut, List.mem_cons]
    rw [h]
    rfl

/-- Field-level description of setOutput: the four output destinations
are rewritten (streams only when captured), everything else is kept. -/
theorem setOutput_eq (rl : LogRot) (w : World) :
    setOutput rl w =
      { w with
        logOutput := rl.logFile,
        loggerOut := fun x =>
          if x ∈ rl.loggers then rl.logFile else w.loggerOut x,
        stdout := if rl.captureStdout then rl.logFile else w.stdout,
        stderr := if rl.captureStderr then rl.logFile else w.stderr } := by
  simp only [setOutput, foldl_setLoggerOut]
  by_cases h1 : rl.captureStdout <;> by_cases h2 : rl.captureStderr <;>
    simp [h1, h2]

/-- Appending one register event to the history. -/
theorem lastReg_append (log : List (Path × File)) (q : Path) (f : File)
    (p : Path) :
    lastReg (log ++ [(q, f)]) p =
      if q = p then some f else lastReg log p := by
  unfold lastReg
  rw [List.foldl_append]
  rfl

theorem worldInv_init (bad : List Path) : worldInv (initWorld bad) := by
  refine ⟨fun p => rfl, fun e he => ?_, fun i hi => ?_⟩
  · simp [initWorld] at he
  · simp [initWorld] at hi

/-- What a successful mustOpenFileForAppend looks like on a good path. -/
theorem mustOpen_ok (name : Path) (w : World) (hgood : name ∉ w.badPaths) :
    mustOpenFileForAppend name w =
      .ok (⟨w.nextId, name⟩,
        register name ⟨w.nextId, name⟩
          { w with
            nextId := w.nextId + 1,
            openIds := w.nextId :: w.openIds,
            openLog := w.openLog
              ++ [(name, appendCreateFlags, appendCreateMode)] }) := by
  simp [mustOpenFileForAppend, osOpenFile, hgood]

/-- mustOpenFileForAppend fails exactly on the bad paths. -/
theorem mustOpen_err (name : Path) (w : World) (hbad : name ∈ w.badPaths) :
    mustOpenFileForAppend name w = .error ("error: " ++ name) := by
  simp [mustOpenFileForAppend, osOpenFile, hbad]

theorem worldInv_mustOpen (name : Path) (w : World) (f : File) (w1 : World)
    (hw : worldInv w) (h : mustOpenFileForAppend name w = .ok (f, w1)) :
    worldInv w1 := by
  by_cases hbad : name ∈ w.badPaths
  · rw [mustOpen_err name w hbad] at h
    exact absurd h (by simp)
  · rw [mustOpen_ok name w hbad] at h
    simp only [Except.ok.injEq, Prod.mk.injEq] at h
    obtain ⟨hf, hw1⟩ := h
    subst hf
    subst hw1
    obtain ⟨hreg, hflags, hids⟩ := hw
    refine ⟨fun p => ?_, fun e he => ?_, fun i hi => ?_⟩
    · simp only [register, lastReg_append]
      by_cases hp : p = name
      · simp [hp]
      · simp [hp, Ne.symm hp, hreg p]
    · simp only [register] at he
      rcases (List.mem_append.mp he) with h1 | h1
      · exact hflags e h1
      · simp at h1
        simp [h1]
    · simp only [register] at hi ⊢
      rcases List.mem_cons.mp hi with h1 | h1
      · simp [h1]
      · exact Nat.lt_succ_of_lt (hids i h1)

theorem worldInv_Open (name : Path) (w : World) (f : File) (w1 : World)
    (hw : worldInv w) (h : Open name w = .ok (f, w1)) : worldInv w1 := by
  unfold Open at h
  cases hc : w.files name with
  | some g =>
    rw [hc] at h
    simp only [Except.ok.injEq, Prod.mk.injEq] at h
    obtain ⟨hf, hw1⟩ := h
    subst hw1
    exact hw
  | none =>
    rw [hc] at h
    exact worldInv_mustOpen name w f w1 hw h

theorem worldInv_setOutput (rl : LogRot) (w : World) (hw : worldInv w) :
    worldInv (setOutput rl w) := by
  rw [setOutput_eq]
  exact hw

theorem worldInv_closeFile (f : File) (w : World) (hw : worldInv w) :
    worldInv (closeFile f w) := by
  obtain ⟨hreg, hflags, hids⟩ := hw
  refine ⟨hreg, hflags, fun i hi => ?_⟩
  simp only [closeFile] at hi
  exact hids i (List.mem_of_mem_filter hi)

theorem worldInv_rotate (rl : LogRot) (w : World) (rl1 : LogRot) (w1 : World)
    (hw : worldInv w) (h : rotate rl w = .ok (rl1, w1)) : worldInv w1 := by
  unfold rotate at h
  cases hm : mustOpenFileForAppend rl.name w with
  | error e => rw [hm] at h; exact absurd h (by simp)
  | ok p =>
    rw [hm] at h
    obtain ⟨f, wm⟩ := p
    have hwm := worldInv_mustOpen rl.name w f wm hw hm
    have hso := worldInv_setOutput { rl with logFile := some f } wm hwm
    cases hl : rl.logFile with
    | some g =>
      rw [hl] at h
      simp only [Except.ok.injEq, Prod.mk.injEq] at h
      obtain ⟨hrl1, hw1⟩ := h
      subst hw1
      exact worldInv_closeFile g _ hso
    | none =>
      rw [hl] at h
      simp only [Except.ok.injEq, Prod.mk.injEq] at h
      obtain ⟨hrl1, hw1⟩ := h
      subst hw1
      exact hso

theorem worldInv_nextCh (w : World) (n : Nat) (hw : worldInv w) :
    worldInv { w with nextCh := n } := hw

theorem worldInv_rotateOn (name : Path) (sig : Nat) (ls : List Nat)
    (w : World) (c : Ctl) (w1 : World) (hw : worldInv w)
    (h : rotateOn name sig ls w = .ok (c, w1)) : worldInv w1 := by
  unfold rotateOn at h
  cases hm : mustOpenFileForAppend name w with
  | error e => rw [hm] at h; exact absurd h (by simp)
  | ok p =>
    rw [hm] at h
    obtain ⟨f, wm⟩ := p
    have hwm := worldInv_mustOpen name w f wm hw hm
    simp only [Except.ok.injEq, Prod.mk.injEq] at h
    obtain ⟨hc, hw1⟩ := h
    subst hw1
    exact worldInv_setOutput _ _ (worldInv_nextCh wm _ hwm)

theorem worldInv_CaptureStdout (rl : LogRot) (w : World) (hw : worldInv w) :
    worldInv (CaptureStdout rl w).2 := hw

theorem worldInv_CaptureStderr (rl : LogRot) (w : World) (hw : worldInv w) :
    worldInv (CaptureStderr rl w).2 := hw

theorem worldInv_WriteAllTo (name : Path) (ls : List Nat)
    (w : World) (c : Ctl) (w1 : World) (hw : worldInv w)
    (h : WriteAllTo name ls w = .ok (c, w1)) : worldInv w1 := by
  unfold WriteAllTo at h
  cases hm : WriteTo name ls w with
  | error e => rw [hm] at h; exact absurd h (by simp)
  | ok p =>
    rw [hm] at h
    obtain ⟨c0, wm⟩ := p
    have hwm := worldInv_rotateOn name SIGHUP ls w c0 wm hw hm
    simp only [Except.ok.injEq, Prod.mk.injEq] at h
    obtain ⟨hc, hw1⟩ := h
    subst hw1
    exact worldInv_CaptureStderr _ _ (worldInv_CaptureStdout _ _ hwm)

theorem worldInv_Close (oc : Option Ctl) (w : World) (hw : worldInv w) :
    worldInv (Close oc w).2.2 := by
  match oc with
  | none => exact hw
  | some c =>
    cases hl : c.rl.logFile with
    | none => simpa [Close, hl] using hw
    | some f =>
      by_cases hup : c.listenerUp
      · simpa [Close, hl, hup] using worldInv_closeFile f w hw
      · simpa [Close, hl, hup] using hw

theorem worldInv_runOp (st : SysState) (o : Op) (st1 : SysState)
    (hw : worldInv st.world) (h : runOp st o = .ok st1) :
    worldInv st1.world := by
  cases o with
  | openOp p =>
    simp only [runOp] at h
    cases hm : Open p st.world with
    | error e => rw [hm] at h; exact absurd h (by simp)
    | ok q =>
      rw [hm] at h
      obtain ⟨f, w⟩ := q
      simp only [Except.ok.injEq] at h
      subst h
      exact worldInv_Open p st.world f w hw hm
  | writeToOp p ls =>
    simp only [runOp] at h
    cases hm : WriteTo p ls st.world with
    | error e => rw [hm] at h; exact absurd h (by simp)
    | ok q =>
      rw [hm] at h
      obtain ⟨c, w⟩ := q
      simp only [Except.ok.injEq] at h
      subst h
      exact worldInv_rotateOn p SIGHUP ls st.world c w hw hm
  | writeAllToOp p ls =>
    simp only [runOp] at h
    cases hm : WriteAllTo p ls st.world with
    | error e => rw [hm] at h; exact absurd h (by simp)
    | ok q =>
      rw [hm] at h
      obtain ⟨c, w⟩ := q
      simp only [Except.ok.injEq] at h
      subst h
      exact worldInv_WriteAllTo p ls st.world c w hw hm
  | rotateOp i =>
    simp only [runOp] at h
    cases hg : st.ctls[i]? with
    | none =>
      rw [hg] at h
      simp only [Except.ok.injEq] at h
      subst h
      exact hw
    | some c =>
      rw [hg] at h
      dsimp only at h
      cases hm : rotate c.rl st.world with
      | error e => rw [hm] at h; exact absurd h (by simp)
      | ok q =>
        rw [hm] at h
        obtain ⟨rl1, w⟩ := q
        simp only [Except.ok.injEq] at h
        subst h
        exact worldInv_rotate c.rl st.world rl1 w hw hm
  | captureOutOp i =>
    simp only [runOp] at h
    cases hg : st.ctls[i]? with
    | none =>
      rw [hg] at h
      simp only [Except.ok.injEq] at h
      subst h
      exact hw
    | some c =>
      rw [hg] at h
      simp only [Except.ok.injEq] at h
      subst h
      exact worldInv_CaptureStdout c.rl st.world hw
  | captureErrOp i =>
    simp only [runOp] at h
    cases hg : st.ctls[i]? with
    | none =>
      rw [hg] at h
      simp only [Except.ok.injEq] at h
      subst h
      exact hw
    | some c =>
      rw [hg] at h
      simp only [Except.ok.injEq] at h
      subst h
      exact worldInv_CaptureStderr c.rl st.world hw
  | closeOp i =>
    simp only [runOp] at h
    cases hg : st.ctls[i]? with
    | none =>
      rw [hg] at h
      simp only [Except.ok.injEq] at h
      subst h
      exact hw
    | some c =>
      rw [hg] at h
      simp only [Except.ok.injEq] at h
      subst h
      exact worldInv_Close (some c) st.world hw

theorem worldInv_runOps (st : SysState) (ops : List Op) (st1 : SysState)
    (hw : worldInv st.world) (h : runOps st ops = .ok st1) :
    worldInv st1.world := by
  induction ops generalizing st with
  | nil =>
    obtain hst1 : st = st1 := by simpa [runOps] using h
    subst hst1
    exact hw
  | cons o rest ih =>
    unfold runOps at h
    cases hm : runOp st o with
    | error e => rw [hm] at h; exact absurd h (by simp)
    | ok stm =>
      rw [hm] at h
      exact ih stm (worldInv_runOp st o stm hw hm) h

/-- Shape of every successful rotate call: a fresh handle is opened and
registered, the redirection is reapplied with it, and the old handle (if
any) is closed, in that data-flow order. -/
theorem rotate_ok_decomp (rl : LogRot) (w : World) (rl1 : LogRot)
    (w1 : World) (h : rotate rl w = .ok (rl1, w1)) :
    ∃ f wm, mustOpenFileForAppend rl.name w = .ok (f, wm) ∧
      rl1 = { rl with logFile := some f } ∧
      w1 = (match rl.logFile with
        | some g => closeFile g (setOutput { rl with logFile := some f } wm)
        | none => setOutput { rl with logFile := some f } wm) := by
  unfold rotate at h
  cases hm : mustOpenFileForAppend rl.name w with
  | error e => rw [hm] at h; exact absurd h (by simp)
  | ok p =>
    rw [hm] at h
    obtain ⟨f, wm⟩ := p
    refine ⟨f, wm, rfl, ?_⟩
    cases hl : rl.logFile with
    | some g =>
      rw [hl] at h
      simp only [Except.ok.injEq, Prod.mk.injEq] at h
      exact ⟨h.1.symm, h.2.symm⟩
    | none =>
      rw [hl] at h
      simp only [Except.ok.injEq, Prod.mk.injEq] at h
      exact ⟨h.1.symm, h.2.symm⟩

/-- A rotate call on a good path, fully evaluated. -/
theorem rotate_good (rl : LogRot) (g : File) (w : World)
    (hlf : rl.logFile = some g) (hgood : rl.name ∉ w.badPaths) :
    rotate rl w =
      .ok ({ rl with logFile := some ⟨w.nextId, rl.name⟩ },
        closeFile g (setOutput { rl with logFile := some ⟨w.nextId, rl.name⟩ }
          (register rl.name ⟨w.nextId, rl.name⟩
            { w with
              nextId := w.nextId + 1,
              openIds := w.nextId :: w.openIds,
              openLog := w.openLog
                ++ [(rl.name, appendCreateFlags, appendCreateMode)] }))) := by
  unfold rotate
  rw [mustOpen_ok rl.name w hgood, hlf]

/-- After setOutput, every target attached to the controller points at
its current handle, whatever the previous state was. -/
theorem targetsAimAt_setOutput (rl : LogRot) (w : World) :
    targetsAimAt rl (setOutput rl w) rl.logFile := by
  intro x hx
  simp only [ctlTargets, setOutput_eq] at hx
  rcases List.mem_cons.mp hx with h | h
  · exact h
  · rcases List.mem_append.mp h with h2 | h2
    · rcases List.mem_append.mp h2 with h3 | h3
      · obtain ⟨l, hl, hlx⟩ := List.mem_map.mp h3
        rw [← hlx]
        simp [hl]
      · by_cases hc : rl.captureStdout
        · simp [hc] at h3
          simp [h3, hc]
        · simp [hc] at h3
    · by_cases hc : rl.captureStderr
      · simp [hc] at h2
        simp [h2, hc]
      · simp [hc] at h2

/-- Inversion of a successful mustOpenFileForAppend: the path was good,
the handle is the fresh one, and the world is the registered one. -/
theorem mustOpen_ok_inv (name : Path) (w : World) (f : File) (wm : World)
    (h : mustOpenFileForAppend name w = .ok (f, wm)) :
    name ∉ w.badPaths ∧ f = ⟨w.nextId, name⟩ ∧
    wm = register name ⟨w.nextId, name⟩
      { w with
        nextId := w.nextId + 1,
        openIds := w.nextId :: w.openIds,
        openLog := w.openLog
          ++ [(name, appendCreateFlags, appendCreateMode)] } := by
  by_cases hbad : name ∈ w.badPaths
  · rw [mustOpen_err name w hbad] at h
    exact absurd h (by simp)
  · rw [mustOpen_ok name w hbad] at h
    simp only [Except.ok.injEq, Prod.mk.injEq] at h
    exact ⟨hbad, h.1.symm, h.1 ▸ h.2.symm⟩

/-- rotate leaves the subscribed signal unchanged. -/
theorem rotate_signal_eq (rl : LogRot) (w : World) (rl1 : LogRot)
    (w1 : World) (h : rotate rl w = .ok (rl1, w1)) :
    rl1.signal = rl.signal := by
  obtain ⟨f, wm, hm, hrl1, hw1⟩ := rotate_ok_decomp rl w rl1 w1 h
  subst hrl1
  rfl

/-- C6: the output redirection operation is idempotent: for any fixed
handle and target set (default log sink, attached loggers, optionally
captured stdout and stderr), applying setOutput twice in a row leaves
every target in exactly the same state as applying it once. -/
theorem setOutput_idempotent (rl : LogRot) (w : World) :
    setOutput rl (setOutput rl w) = setOutput rl w := by
  rw [setOutput_eq rl w, setOutput_eq]
  refine World.ext rfl rfl rfl rfl rfl rfl rfl rfl ?_ ?_ ?_
  · funext x
    by_cases hx : x ∈ rl.loggers <;> simp [hx]
  · by_cases hc : rl.captureStdout <;> simp [hc]
  · by_cases hc : rl.captureStderr <;> simp [hc]

/-- C9: rotate mutates the controller in place by replacing only the
current-handle field with the newly opened handle and reapplying the
redirection; the path, subscribed signal, attached logger list, the two
stream-capture flags and the shutdown channel are unchanged by every
rotation. -/
theorem rotate_frame (rl : LogRot) (w : World) (rl1 : LogRot) (w1 : World)
    (h : rotate rl w = .ok (rl1, w1)) :
    rl1.name = rl.name ∧ rl1.signal = rl.signal ∧
    rl1.loggers = rl.loggers ∧ rl1.captureStdout = rl.captureStdout ∧
    rl1.captureStderr = rl.captureStderr ∧ rl1.quit = rl.quit ∧
    (∃ f, rl1.logFile = some f ∧ f.id = w.nextId ∧ f.path = rl.name) ∧
    w1.logOutput = rl1.logFile := by
  obtain ⟨f, wm, hm, hrl1, hw1⟩ := rotate_ok_decomp rl w rl1 w1 h
  obtain ⟨hgood, hf, hwm⟩ := mustOpen_ok_inv rl.name w f wm hm
  subst hrl1
  refine ⟨rfl, rfl, rfl, rfl, rfl, rfl, ⟨f, rfl, ?_, ?_⟩, ?_⟩
  · rw [hf]
  · rw [hf]
  · cases hl : rl.logFile with
    | some g =>
      rw [hl] at hw1
      subst hw1
      simp [closeFile, setOutput_eq]
    | none =>
      rw [hl] at hw1
      subst hw1
      simp [setOutput_eq]

theorem rotate_frame_witness :
    rotate rl0 w0 = .ok (rotDemo.1, rotDemo.2) ∧
    (rotDemo.1.name = rl0.name ∧ rotDemo.1.signal = rl0.signal ∧
      rotDemo.1.loggers = rl0.loggers ∧
      rotDemo.1.captureStdout = rl0.captureStdout ∧
      rotDemo.1.captureStderr = rl0.captureStderr ∧
      rotDemo.1.quit = rl0.quit ∧
      (∃ f, rotDemo.1.logFile = some f ∧ f.id = w0.nextId ∧
        f.path = rl0.name) ∧
      rotDemo.2.logOutput = rotDemo.1.logFile) :=
  ⟨rfl, rotate_frame rl0 w0 rotDemo.1 rotDemo.2 rfl⟩

/-- C4: whenever opening or reopening the target log file fails, at
initial start (rotateOn) or during a rotation (rotate), the process
terminates immediately with a diagnostic message; and on success the open
never hands back a nil or invalid handle: it returns a handle for the
requested path that is open at the OS level. -/
theorem open_failure_fatal (name : Path) (w : World) (sig : Nat)
    (ls : List Nat) (rl : LogRot) (hname : rl.name = name) :
    (name ∈ w.badPaths →
      mustOpenFileForAppend name w = .error ("error: " ++ name) ∧
      rotateOn name sig ls w = .error ("error: " ++ name) ∧
      rotate rl w = .error ("error: " ++ name)) ∧
    (name ∉ w.badPaths →
      ∃ f w1, mustOpenFileForAppend name w = .ok (f, w1) ∧
        f.path = name ∧ f.id ∈ w1.openIds) := by
  constructor
  · intro hbad
    refine ⟨mustOpen_err name w hbad, ?_, ?_⟩
    · unfold rotateOn
      rw [mustOpen_err name w hbad]
    · unfold rotate
      rw [hname, mustOpen_err name w hbad]
  · intro hgood
    refine ⟨⟨w.nextId, name⟩, _, mustOpen_ok name w hgood, rfl, ?_⟩
    simp [register]

theorem open_failure_fatal_witness :
    ("bad" ∈ wBad.badPaths ∧
      mustOpenFileForAppend "bad" wBad = .error ("error: " ++ "bad") ∧
      rotateOn "bad" SIGHUP [] wBad = .error ("error: " ++ "bad") ∧
      rotate rlBad wBad = .error ("error: " ++ "bad")) ∧
    ("app.log" ∉ wBad.badPaths ∧
      ∃ f w1, mustOpenFileForAppend "app.log" wBad = .ok (f, w1) ∧
        f.path = "app.log" ∧ f.id ∈ w1.openIds) :=
  ⟨⟨by decide,
    (open_failure_fatal "bad" wBad SIGHUP [] rlBad rfl).1 (by decide)⟩,
   ⟨by decide,
    (open_failure_fatal "app.log" wBad SIGHUP [] rl0 rfl).2 (by decide)⟩⟩

/-- C2: if n rotation signals for the subscribed signal arrive on the
listener channel, the listener performs exactly n rotate invocations and
its run is equal to the n-fold sequential composition of rotate, so each
invocation fully completes before the next begins and two rotations of
the same controller never interleave; and on a quit event the listener
returns at once without processing any signal, so signal handling and
shutdown handling are mutually exclusive. -/
theorem listen_sequential (rl : LogRot) (w : World) (n : Nat)
    (evs : List LEv) :
    listen rl w (List.replicate n (LEv.sigEv rl.signal)) =
      Except.map (fun p => (p.1, p.2, n)) (iterRotate n rl w) ∧
    listen rl w (LEv.quitEv :: evs) = .ok (rl, w, 0) := by
  constructor
  · induction n generalizing rl w with
    | zero => simp [listen, iterRotate, Except.map]
    | succ n ih =>
      rw [List.replicate_succ]
      simp only [listen, eq_self_iff_true, if_true]
      cases hm : rotate rl w with
      | error e => simp [iterRotate, hm, Except.map]
      | ok p =>
        obtain ⟨rl1, w1⟩ := p
        dsimp only
        have hsig := rotate_signal_eq rl w rl1 w1 hm
        rw [← hsig, ih rl1 w1]
        simp only [iterRotate]
        rw [hm]
        cases hit : iterRotate n rl1 w1 with
        | error e =>
          dsimp only
          rw [hit]
          simp [Except.map]
        | ok q =>
          dsimp only
          rw [hit]
          simp [Except.map]
  · rfl

/-- C1: on every successful rotation event, rotate first opens a
brand-new handle for the controller path, then reapplies the output
redirection to all attached targets using the new handle, and only then
closes the previous handle; at every point in between, every attached
writer targets a handle that is open at that point, never an
already-closed one.  The hypotheses say the controller is in its normal
running state: its targets point at its current handle `g`, which is open,
and every open handle id is below the id counter. -/
theorem rotate_order_safe (rl : LogRot) (g : File) (w : World)
    (hlf : rl.logFile = some g)
    (haim : targetsAimAt rl w (some g))
    (hopen : g.id ∈ w.openIds)
    (hbound : idsInv w)
    (hgood : rl.name ∉ w.badPaths) :
    rotationStepSafe rl g w := by
  have hgid : g.id < w.nextId := hbound g.id hopen
  refine ⟨⟨w.nextId, rl.name⟩, _, mustOpen_ok rl.name w hgood, rfl, rfl,
    ?_, ?_, rotate_good rl g w hlf hgood, ?_, ?_, ?_, ?_, ?_, ?_, ?_, ?_⟩
  · intro hmem
    exact absurd (hbound _ hmem) (Nat.lt_irrefl _)
  · intro he
    rw [show (⟨w.nextId, rl.name⟩ : File).id = w.nextId from rfl] at he
    rw [he] at hgid
    exact Nat.lt_irrefl _ hgid
  · exact haim
  · exact List.mem_cons_of_mem _ hopen
  · exact List.mem_cons_self _ _
  · exact targetsAimAt_setOutput { rl with logFile := some ⟨w.nextId, rl.name⟩ } _
  · rw [setOutput_eq]
    exact List.mem_cons_self _ _
  · exact targetsAimAt_setOutput { rl with logFile := some ⟨w.nextId, rl.name⟩ } _
  · simp only [closeFile, setOutput_eq]
    refine List.mem_filter.mpr ⟨List.mem_cons_self _ _, ?_⟩
    simp
    omega
  · simp only [closeFile]
    intro hmem
    have := (List.mem_filter.mp hmem).2
    simp at this

theorem rotate_order_safe_witness :
    rl0.logFile = some f0 ∧ targetsAimAt rl0 w0 (some f0) ∧
    f0.id ∈ w0.openIds ∧ idsInv w0 ∧ rl0.name ∉ w0.badPaths ∧
    rotationStepSafe rl0 f0 w0 :=
  ⟨rfl, by decide, by decide, by decide, by decide,
    rotate_order_safe rl0 f0 w0 rfl (by decide) (by decide) (by decide)
      (by decide)⟩

/-- C3: in every reachable state, the registry lookup Open returns the
handle most recently registered for a path, every successful open having
registered its handle; and for a path never registered, Open opens a
fresh file, registers it, and returns it. -/
theorem Open_returns_last_registered (bad : List Path) (ops : List Op)
    (st : SysState) (p : Path) (f : File)
    (hrun : runOps (initState bad) ops = .ok st) :
    registryCorrectAt st.world p f := by
  obtain ⟨hreg, hflags, hids⟩ :=
    worldInv_runOps (initState bad) ops st (worldInv_init bad) hrun
  constructor
  · intro hlast
    unfold Open
    rw [hreg p, hlast]
  · intro hlast hgoodp
    unfold Open
    rw [hreg p, hlast]
    refine ⟨⟨st.world.nextId, p⟩, _, mustOpen_ok p st.world hgoodp,
      rfl, rfl, ?_, ?_, ?_⟩
    · intro hmem
      exact absurd (hids _ hmem) (Nat.lt_irrefl _)
    · simp [register]
    · simp [register, lastReg_append]

theorem Open_returns_last_registered_witness :
    runOps (initState []) [Op.writeToOp "app.log" []] = .ok runDemo ∧
    registryCorrectAt runDemo.world "app.log" f0 :=
  ⟨rfl, Open_returns_last_registered [] [Op.writeToOp "app.log" []]
    runDemo "app.log" f0 rfl⟩

/-- C8: in every reachable state, every OS open of a log file performed
by the package (initial start, registry lookup, or rotation) used
create-if-missing, write-only, append-mode flags with permission mode
0644, whose octal digits are rw for the owner and r for group and
other. -/
theorem opens_append_create_0644 (bad : List Path) (ops : List Op)
    (st : SysState) (e : Path × OpenFlags × Nat)
    (hrun : runOps (initState bad) ops = .ok st)
    (he : e ∈ st.world.openLog) :
    e.2.1.create = true ∧ e.2.1.writeOnly = true ∧ e.2.1.append = true ∧
    e.2.2 = 0o644 ∧ e.2.2 / 64 % 8 = 6 ∧ e.2.2 / 8 % 8 = 4 ∧
    e.2.2 % 8 = 4 := by
  obtain ⟨hreg, hflags, hids⟩ :=
    worldInv_runOps (initState bad) ops st (worldInv_init bad) hrun
  obtain ⟨hfl, hmode⟩ := hflags e he
  rw [hfl, hmode]
  exact ⟨rfl, rfl, rfl, rfl, by decide, by decide, by decide⟩

theorem opens_append_create_0644_witness :
    runOps (initState []) [Op.writeToOp "app.log" []] = .ok runDemo ∧
    ("app.log", appendCreateFlags, appendCreateMode)
      ∈ runDemo.world.openLog ∧
    (appendCreateFlags.create = true ∧ appendCreateFlags.writeOnly = true ∧
      appendCreateFlags.append = true ∧ appendCreateMode = 0o644 ∧
      appendCreateMode / 64 % 8 = 6 ∧ appendCreateMode / 8 % 8 = 4 ∧
      appendCreateMode % 8 = 4) :=
  ⟨rfl, by decide,
    opens_append_create_0644 [] [Op.writeToOp "app.log" []] runDemo
      ("app.log", appendCreateFlags, appendCreateMode) rfl (by decide)⟩

/-- One rotation of a controller with the stdout flag set keeps the flag
and points os.Stdout at the newly opened handle. -/
theorem rotate_capture_stdout (rl2 : LogRot) (w2 : World) (rl3 : LogRot)
    (w3 : World) (hcap : rl2.captureStdout = true)
    (hrot : rotate rl2 w2 = .ok (rl3, w3)) :
    rl3.captureStdout = true ∧ w3.stdout = rl3.logFile ∧
    rl3.logFile = some ⟨w2.nextId, rl2.name⟩ := by
  obtain ⟨f, wm, hm, hrl3, hw3⟩ := rotate_ok_decomp rl2 w2 rl3 w3 hrot
  obtain ⟨hgood, hf, hwm⟩ := mustOpen_ok_inv rl2.name w2 f wm hm
  subst hrl3
  subst hf
  refine ⟨hcap, ?_, rfl⟩
  cases hl : rl2.logFile with
  | some g =>
    rw [hl] at hw3
    subst hw3
    simp [closeFile, setOutput_eq, hcap]
  | none =>
    rw [hl] at hw3
    subst hw3
    simp [setOutput_eq, hcap]

/-- One rotation of a controller with the stderr flag set keeps the flag
and points os.Stderr at the newly opened handle. -/
theorem rotate_capture_stderr (rl2 : LogRot) (w2 : World) (rl3 : LogRot)
    (w3 : World) (hcap : rl2.captureStderr = true)
    (hrot : rotate rl2 w2 = .ok (rl3, w3)) :
    rl3.captureStderr = true ∧ w3.stderr = rl3.logFile ∧
    rl3.logFile = some ⟨w2.nextId, rl2.name⟩ := by
  obtain ⟨f, wm, hm, hrl3, hw3⟩ := rotate_ok_decomp rl2 w2 rl3 w3 hrot
  obtain ⟨hgood, hf, hwm⟩ := mustOpen_ok_inv rl2.name w2 f wm hm
  subst hrl3
  subst hf
  refine ⟨hcap, ?_, rfl⟩
  cases hl : rl2.logFile with
  | some g =>
    rw [hl] at hw3
    subst hw3
    simp [closeFile, setOutput_eq, hcap]
  | none =>
    rw [hl] at hw3
    subst hw3
    simp [setOutput_eq, hcap]

/-- Across any number of sequential rotations, a set stdout flag stays
set and os.Stdout keeps following the current handle. -/
theorem iter_capture_stdout (n : Nat) (rl : LogRot) (w : World)
    (rlN : LogRot) (wN : World) (hcap : rl.captureStdout = true)
    (hst : w.stdout = rl.logFile)
    (h : iterRotate n rl w = .ok (rlN, wN)) :
    rlN.captureStdout = true ∧ wN.stdout = rlN.logFile := by
  induction n generalizing rl w with
  | zero =>
    simp only [iterRotate, Except.ok.injEq, Prod.mk.injEq] at h
    obtain ⟨h1, h2⟩ := h
    subst h1
    subst h2
    exact ⟨hcap, hst⟩
  | succ n ih =>
    simp only [iterRotate] at h
    cases hm : rotate rl w with
    | error e => rw [hm] at h; exact absurd h (by simp)
    | ok p =>
      rw [hm] at h
      obtain ⟨rl1, w1⟩ := p
      obtain ⟨hc1, hs1, hf1⟩ := rotate_capture_stdout rl w rl1 w1 hcap hm
      exact ih rl1 w1 hc1 hs1 h

/-- Across any number of sequential rotations, a set stderr flag stays
set and os.Stderr keeps following the current handle. -/
theorem iter_capture_stderr (n : Nat) (rl : LogRot) (w : World)
    (rlN : LogRot) (wN : World) (hcap : rl.captureStderr = true)
    (hst : w.stderr = rl.logFile)
    (h : iterRotate n rl w = .ok (rlN, wN)) :
    rlN.captureStderr = true ∧ wN.stderr = rlN.logFile := by
  induction n generalizing rl w with
  | zero =>
    simp only [iterRotate, Except.ok.injEq, Prod.mk.injEq] at h
    obtain ⟨h1, h2⟩ := h
    subst h1
    subst h2
    exact ⟨hcap, hst⟩
  | succ n ih =>
    simp only [iterRotate] at h
    cases hm : rotate rl w with
    | error e => rw [hm] at h; exact absurd h (by simp)
    | ok p =>
      rw [hm] at h
      obtain ⟨rl1, w1⟩ := p
      obtain ⟨hc1, hs1, hf1⟩ := rotate_capture_stderr rl w rl1 w1 hcap hm
      exact ih rl1 w1 hc1 hs1 h

/-- C7: CaptureStdout (respectively CaptureStderr) immediately redirects
the process-wide stream to the current handle of the controller and sets
the flag; with the flag set, every rotation redirects that stream to each
newly opened handle, and after any number of rotations following a
capture the stream still follows the current handle. -/
theorem capture_streams (rl rl2 rl2e rl3 rl3e rlN rlM : LogRot)
    (w : World) (w2 w2e w3 w3e wN wM : World) (n m : Nat)
    (hcap : rl2.captureStdout = true)
    (hrot : rotate rl2 w2 = .ok (rl3, w3))
    (hcape : rl2e.captureStderr = true)
    (hrote : rotate rl2e w2e = .ok (rl3e, w3e))
    (hseq : iterRotate n (CaptureStdout rl w).1 (CaptureStdout rl w).2 =
      .ok (rlN, wN))
    (hseqe : iterRotate m (CaptureStderr rl w).1 (CaptureStderr rl w).2 =
      .ok (rlM, wM)) :
    captureStreamsSpec rl rl2 rl2e rl3 rl3e rlN rlM w w2 w2e w3 w3e wN wM := by
  obtain ⟨h5, h6, h7⟩ := rotate_capture_stdout rl2 w2 rl3 w3 hcap hrot
  obtain ⟨h8, h9, h10⟩ := rotate_capture_stderr rl2e w2e rl3e w3e hcape hrote
  obtain ⟨h11, h12⟩ :=
    iter_capture_stdout n (CaptureStdout rl w).1 (CaptureStdout rl w).2
      rlN wN rfl rfl hseq
  obtain ⟨h13, h14⟩ :=
    iter_capture_stderr m (CaptureStderr rl w).1 (CaptureStderr rl w).2
      rlM wM rfl rfl hseqe
  exact ⟨rfl, rfl, rfl, rfl, h5, h6, h7, h8, h9, h10, h11, h12, h13, h14⟩

theorem capture_streams_witness :
    capOutDemo.1.captureStdout = true ∧
    rotate capOutDemo.1 capOutDemo.2 =
      .ok (capOutRotDemo.1, capOutRotDemo.2) ∧
    capErrDemo.1.captureStderr = true ∧
    rotate capErrDemo.1 capErrDemo.2 =
      .ok (capErrRotDemo.1, capErrRotDemo.2) ∧
    iterRotate 1 (CaptureStdout rl0 w0).1 (CaptureStdout rl0 w0).2 =
      .ok (capOutRotDemo.1, capOutRotDemo.2) ∧
    iterRotate 1 (CaptureStderr rl0 w0).1 (CaptureStderr rl0 w0).2 =
      .ok (capErrRotDemo.1, capErrRotDemo.2) ∧
    captureStreamsSpec rl0 capOutDemo.1 capErrDemo.1 capOutRotDemo.1
      capErrRotDemo.1 capOutRotDemo.1 capErrRotDemo.1 w0 capOutDemo.2
      capErrDemo.2 capOutRotDemo.2 capErrRotDemo.2 capOutRotDemo.2
      capErrRotDemo.2 :=
  ⟨rfl, rfl, rfl, rfl, rfl, rfl,
    capture_streams rl0 capOutDemo.1 capErrDemo.1 capOutRotDemo.1
      capErrRotDemo.1 capOutRotDemo.1 capErrRotDemo.1 w0 capOutDemo.2
      capErrDemo.2 capOutRotDemo.2 capErrRotDemo.2 capOutRotDemo.2
      capErrRotDemo.2 1 1 rfl rfl rfl rfl rfl rfl⟩

/-- C5 counterexample: start a controller with WriteTo and call Close
twice.  The first Close completes (the listener receives the quit
notification and returns, then the handle is closed), but the second
Close finds the logFile field still non-nil and sends on the quit channel
again; the listener is gone, so the unbuffered send blocks forever.  The
second Close is therefore not a safe no-op, refuting the claim. -/
theorem close_twice_blocks :
    closeDemo1.1 = CloseOutcome.completed ∧
    closeDemo2.1 = CloseOutcome.blocked ∧
    CloseOutcome.blocked ≠ CloseOutcome.noop :=
  ⟨rfl, rfl, by decide⟩

/-- C5 amended: Close on a nil controller, or on a never-started
controller whose logFile field is nil, is a safe no-op; Close on a
running controller completes; but a second Close of an already-closed
controller is not a no-op: it blocks forever sending on the quit channel
whose listener has already returned (it still does not panic or
throw). -/
theorem close_safety_amended (w : World) (c c2 : Ctl) (f : File)
    (hf : c.rl.logFile = some f) (hup : c.listenerUp = true)
    (h2 : c2.rl.logFile = none) :
    Close none w = (CloseOutcome.noop, none, w) ∧
    Close (some c2) w = (CloseOutcome.noop, some c2, w) ∧
    (Close (some c) w).1 = CloseOutcome.completed ∧
    (Close (Close (some c) w).2.1 (Close (some c) w).2.2).1 =
      CloseOutcome.blocked := by
  have hc : Close (some c) w =
      (CloseOutcome.completed, some { c with listenerUp := false },
        closeFile f w) := by
    simp [Close, hf, hup]
  refine ⟨rfl, ?_, ?_, ?_⟩
  · simp [Close, h2]
  · rw [hc]
  · rw [hc]
    simp [Close, hf]

theorem close_safety_amended_witness :
    c0.rl.logFile = some f0 ∧ c0.listenerUp = true ∧
    cNil.rl.logFile = none ∧
    (Close none w0 = (CloseOutcome.noop, none, w0) ∧
      Close (some cNil) w0 = (CloseOutcome.noop, some cNil, w0) ∧
      (Close (some c0) w0).1 = CloseOutcome.completed ∧
      (Close (Close (some c0) w0).2.1 (Close (some c0) w0).2.2).1 =
        CloseOutcome.blocked) :=
  ⟨rfl, rfl, rfl, close_safety_amended w0 c0 cNil f0 rfl rfl rfl⟩

/-- C10: Close on a started controller stops the listener and closes the
current handle but modifies no other state: the registry map, the default
log output, the logger outputs and the stream variables are untouched, so
the registry entry for the controller path and the default log output
still reference the now-closed handle, a subsequent Open of that path
returns the already-closed handle, and the default log sink targets a
closed file. -/
theorem close_frame (c : Ctl) (w : World) (f : File)
    (hf : c.rl.logFile = some f) (hup : c.listenerUp = true)
    (hreg : w.files c.rl.name = some f) (hlog : w.logOutput = some f) :
    (Close (some c) w).1 = CloseOutcome.completed ∧
    (Close (some c) w).2.1 = some { c with listenerUp := false } ∧
    (Close (some c) w).2.2.files = w.files ∧
    (Close (some c) w).2.2.logOutput = some f ∧
    (Close (some c) w).2.2.loggerOut = w.loggerOut ∧
    (Close (some c) w).2.2.stdout = w.stdout ∧
    (Close (some c) w).2.2.stderr = w.stderr ∧
    f.id ∉ (Close (some c) w).2.2.openIds ∧
    Open c.rl.name (Close (some c) w).2.2 =
      .ok (f, (Close (some c) w).2.2) := by
  have hc : Close (some c) w =
      (CloseOutcome.completed, some { c with listenerUp := false },
        closeFile f w) := by
    simp [Close, hf, hup]
  rw [hc]
  refine ⟨rfl, rfl, rfl, hlog, rfl, rfl, rfl, ?_, ?_⟩
  · intro hmem
    have := (List.mem_filter.mp hmem).2
    simp at this
  · unfold Open
    rw [show (closeFile f w).files = w.files from rfl, hreg]

theorem close_frame_witness :
    c0.rl.logFile = some f0 ∧ c0.listenerUp = true ∧
    w0.files c0.rl.name = some f0 ∧ w0.logOutput = some f0 ∧
    ((Close (some c0) w0).1 = CloseOutcome.completed ∧
      (Close (some c0) w0).2.1 = some { c0 with listenerUp := false } ∧
      (Close (some c0) w0).2.2.files = w0.files ∧
      (Close (some c0) w0).2.2.logOutput = some f0 ∧
      (Close (some c0) w0).2.2.loggerOut = w0.loggerOut ∧
      (Close (some c0) w0).2.2.stdout = w0.stdout ∧
      (Close (some c0) w0).2.2.stderr = w0.stderr ∧
      f0.id ∉ (Close (some c0) w0).2.2.openIds ∧
      Open c0.rl.name (Close (some c0) w0).2.2 =
        .ok (f0, (Close (some c0) w0).2.2)) :=
  ⟨rfl, rfl, by decide, rfl, close_frame c0 w0 f0 rfl rfl (by decide) rfl⟩

end Logrot
